import Mathlib

/-!
Verification development for the genome-install repository.

The repository streams gzip-compressed genome assembly files through an
incremental decompressor into the standard input of an external
`makeblastdb` child process.  This file gives a shallow embedding of

  * `genome_install/blastdb.py` : the `StreamGunZip` decompressing reader,
    the `MakeBlastDB` configuration object with its `set_defaults`,
    `set_options`, `get_command_args`, `communicate` and `make` methods;
  * `script/get_genomes.py` : the three-attempt retry loop of the batch
    driver around `download_and_make`;
  * `genome_install/edirect.py` : the `AssemblyReference` constructor.

Byte strings are modelled as `List Nat`.  The external zlib library
(`zlib.decompressobj(zlib.MAX_WBITS|32)`) is not repository code; it is
modelled here by an explicit state machine over a stored-format gzip
member (10-byte header with magic bytes 31/139 and method 8, a two-byte
little-endian payload length, the payload, an 8-byte trailer).  The model
mirrors the zlib behaviours the repository relies on: output is produced
incrementally and only from payload bytes, feeding a partial header
produces no output and no error, an invalid magic or method byte raises
an error at once, and once the first member's trailer has been consumed
the decompressor is at end-of-stream and all further input is swallowed
without producing output (CPython's `decompressobj` routes it to
`unused_data`; it does not restart on a second concatenated gzip member).
Checksum verification is abstracted away: the model accepts any trailer
bytes, as the claims under study never corrupt the trailer.
-/

namespace GenomeInstall

/-- Byte strings (Python 2 `str` values holding binary data). -/
abbrev Bytes := List Nat

/-- Phase of the modelled zlib gzip decompressor.  `magic1`, `magic2` and
`method` expect the three validated leading header bytes; `header k`
expects `k` further unvalidated header bytes; `len0`/`len1` read the
two-byte payload length; `body k` emits `k` remaining payload bytes;
`trailer k` consumes `k` remaining trailer bytes; `eof` is the
end-of-stream state after the first member, in which further input is
swallowed (zlib's `unused_data`). -/
inductive GzPhase where
  | magic1
  | magic2
  | method
  | header (k : Nat)
  | len0
  | len1 (lo : Nat)
  | body (k : Nat)
  | trailer (k : Nat)
  | eof
  deriving DecidableEq, Repr

/-- One step of the modelled zlib decompressor: consume one input byte,
return the next phase and the bytes emitted, or a `zlib.error`. -/
def feed1 : GzPhase → Nat → Except Unit (GzPhase × Bytes)
  | .magic1, b => if b = 31 then .ok (.magic2, []) else .error ()
  | .magic2, b => if b = 139 then .ok (.method, []) else .error ()
  | .method, b => if b = 8 then .ok (.header 7, []) else .error ()
  | .header k, _ => if k ≤ 1 then .ok (.len0, []) else .ok (.header (k - 1), [])
  | .len0, b => .ok (.len1 b, [])
  | .len1 lo, b =>
      if lo + 256 * b = 0 then .ok (.trailer 8, []) else .ok (.body (lo + 256 * b), [])
  | .body k, b => if k ≤ 1 then .ok (.trailer 8, [b]) else .ok (.body (k - 1), [b])
  | .trailer k, _ => if k ≤ 1 then .ok (.eof, []) else .ok (.trailer (k - 1), [])
  | .eof, _ => .ok (.eof, [])

/-- Feed a whole byte string to the modelled decompressor
(`decompressobj.decompress` on one argument), collecting the output. -/
def feed (ph : GzPhase) : Bytes → Except Unit (GzPhase × Bytes)
  | [] => .ok (ph, [])
  | b :: rest =>
    match feed1 ph b with
    | .error e => .error e
    | .ok (ph', out) =>
      match feed ph' rest with
      | .error e => .error e
      | .ok (ph'', out') => .ok (ph'', out ++ out')

/-- The fixed 10-byte gzip member header of the model: the two magic
bytes 31 and 139 (0x1f, 0x8b), the deflate method byte 8, and seven
flag/mtime/xfl/os bytes. -/
def gzipHeader : Bytes := [31, 139, 8, 0, 0, 0, 0, 0, 0, 255]

/-- Compressed form of a payload in the modelled format: header, two-byte
little-endian payload length, payload, 8-byte trailer.  Faithful as a
round-trip partner of `feed` for payloads shorter than 65536 bytes (the
bound of a deflate stored block). -/
def gzipCompress (payload : Bytes) : Bytes :=
  gzipHeader ++ [payload.length % 256, payload.length / 256 % 256]
    ++ payload ++ List.replicate 8 0

/-- The `StreamGunZip` object of `blastdb.py`: a zlib decompressor state
`d`, the remaining bytes of the wrapped readable stream, and the
`chunk_size` used by its `next` method (constructor default 1024). -/
structure StreamGunZip where
  d : GzPhase
  stream : Bytes
  chunk_size : Int
  deriving DecidableEq, Repr

/-- Python `file.read(n)` semantics on the modelled stream: a negative
`n` reads everything, otherwise up to `n` bytes are taken.  Returns the
bytes read and the remaining stream. -/
def streamRead (s : Bytes) (n : Int) : Bytes × Bytes :=
  if n < 0 then (s, []) else (s.take n.toNat, s.drop n.toNat)

/-- The `StreamGunZip.decompress` method: with `some n` it reads up to
`n` raw bytes from the stream and decompresses them; with `none`
(Python default) it reads the whole remaining stream.  A `zlib.error`
from the decompressor propagates as `.error`. -/
def StreamGunZip.decompress (g : StreamGunZip) (chunk_size : Option Int) :
    Except Unit (StreamGunZip × Bytes) :=
  match chunk_size with
  | none =>
    match feed g.d g.stream with
    | .error e => .error e
    | .ok (d', out) => .ok ({ g with d := d', stream := [] }, out)
  | some n =>
    let r := streamRead g.stream n
    match feed g.d r.1 with
    | .error e => .error e
    | .ok (d', out) => .ok ({ g with d := d', stream := r.2 }, out)

/-- Result of the `StreamGunZip.next` method: a data chunk, a raised
`StopIteration` (carrying the advanced object state), or a raised
`zlib.error`. -/
inductive NextOutcome where
  | ok (g : StreamGunZip) (data : Bytes)
  | stopIteration (g : StreamGunZip)
  | zlibError
  deriving DecidableEq, Repr

/-- The `StreamGunZip.next` method: decompress the next `chunk_size`
chunk; if the result is empty, raise `StopIteration`. -/
def StreamGunZip.next (g : StreamGunZip) : NextOutcome :=
  match g.decompress (some g.chunk_size) with
  | .error _ => .zlibError
  | .ok (g', data) => if data = [] then .stopIteration g' else .ok g' data

/-- The `MakeBlastDB` configuration object of `blastdb.py`.  The wrapped
input stream (`self.input`) and the spawned process handle (`self.proc`)
are passed to `communicate` separately in this embedding; the remaining
attributes are the configuration fields assigned by `set_defaults` and
`set_options`.  Python's untyped attributes carry string, optional
string, boolean and integer values as used by the program. -/
structure MakeBlastDB where
  executable : String
  inPath : String
  out : Option String
  title : Option String
  dbtype : Option String
  parse_seqids : Bool
  decompress : Bool
  chunk_size : Int
  deriving DecidableEq, Repr

/-- Executable name selection of `MakeBlastDB.__init__`: the name
`makeblastdb` gets the suffix `.exe` exactly when `platform.system()`
reports Windows. -/
def executableName (isWindows : Bool) : String :=
  if isWindows then "makeblastdb" ++ ".exe" else "makeblastdb"

/-- The `MakeBlastDB.set_defaults` method: default attribute values
(`_in = "-"`, nothing else set, `decompress` off, `chunk_size = 16*1024`). -/
def MakeBlastDB.set_defaults (exe : String) : MakeBlastDB :=
  { executable := exe
    inPath := "-"
    out := none
    title := none
    dbtype := none
    parse_seqids := false
    decompress := false
    chunk_size := 16 * 1024 }

/-- One keyword argument of `MakeBlastDB.set_options`.  The recognized
keys `input`, `out`, `title`, `dbtype`, `parse_seqids`, `decompress` and
`chunk_size` are the constructors carrying their values; `unknown k`
stands for any other key named `k`. -/
inductive Kwarg where
  | input (v : String)
  | out (v : String)
  | title (v : String)
  | dbtype (v : String)
  | parse_seqids (v : Bool)
  | decompress (v : Bool)
  | chunk_size (v : Int)
  | unknown (k : String)
  deriving DecidableEq, Repr

/-- The `MakeBlastDB.set_options` method: fold the keyword arguments
over the configuration, assigning the matching attribute for each
recognized key and raising `ValueError("unhandeled option: ...")` at an
unrecognized one. -/
def MakeBlastDB.set_options (m : MakeBlastDB) : List Kwarg → Except String MakeBlastDB
  | [] => .ok m
  | kw :: rest =>
    match kw with
    | .input v => MakeBlastDB.set_options { m with inPath := v } rest
    | .out v => MakeBlastDB.set_options { m with out := some v } rest
    | .title v => MakeBlastDB.set_options { m with title := some v } rest
    | .dbtype v => MakeBlastDB.set_options { m with dbtype := some v } rest
    | .parse_seqids v => MakeBlastDB.set_options { m with parse_seqids := v } rest
    | .decompress v => MakeBlastDB.set_options { m with decompress := v } rest
    | .chunk_size v => MakeBlastDB.set_options { m with chunk_size := v } rest
    | .unknown k => .error ("unhandeled option: " ++ k)

/-- The `MakeBlastDB.get_command_args` method: the executable, `-in`
with the input path, then `-out`, `-title`, `-dbtype` pairs for the
options that are set and the bare `-parse_seqids` flag when requested. -/
def MakeBlastDB.get_command_args (m : MakeBlastDB) : List String :=
  [m.executable, "-in", m.inPath]
    ++ (match m.out with | none => [] | some o => ["-out", o])
    ++ (match m.title with | none => [] | some t => ["-title", t])
    ++ (match m.dbtype with | none => [] | some d => ["-dbtype", d])
    ++ (if m.parse_seqids then ["-parse_seqids"] else [])

/-- Observable side effects of `MakeBlastDB.communicate` on the child
process: a write of bytes to its stdin pipe, closing the pipe, waiting
on the process. -/
inductive PumpEvent where
  | write (bs : Bytes)
  | closeStdin
  | waitChild
  deriving DecidableEq, Repr

/-- How `MakeBlastDB.communicate` ends: returning the child's exit
status from `wait()`, propagating a `zlib.error` out of a `_read` call,
or (never reached for any finite stream, kept to make the loop fuel
explicit) running out of fuel. -/
inductive CommOutcome where
  | returned (rc : Int)
  | raisedZlibError
  | fuelOut
  deriving DecidableEq, Repr

/-- Result of a `communicate` run: the events performed on the child, in
order, and the outcome. -/
structure CommResult where
  events : List PumpEvent
  outcome : CommOutcome
  deriving DecidableEq, Repr

/-- The `_read` closure of `communicate`: either the raw stream's
`read(chunk_size)` or a fresh `StreamGunZip`'s `decompress(chunk_size)`,
each carrying its remaining state. -/
inductive ReadState where
  | raw (s : Bytes)
  | gz (g : StreamGunZip)
  deriving DecidableEq, Repr

/-- Perform one `_read()` call: raw reads never fail, decompressing
reads propagate `zlib.error`. -/
def doRead (cs : Int) : ReadState → Except Unit (ReadState × Bytes)
  | .raw s => let r := streamRead s cs; .ok (.raw r.2, r.1)
  | .gz g =>
    match g.decompress (some cs) with
    | .error e => .error e
    | .ok (g', out) => .ok (.gz g', out)

/-- The reader `communicate` builds before its first read: a fresh
`StreamGunZip` around the input when `decompress` is set (its own
constructor default `chunk_size` 1024 is unused, the pump passes
`self.chunk_size` explicitly), the raw input stream otherwise. -/
def MakeBlastDB.initialReader (m : MakeBlastDB) (input : Bytes) : ReadState :=
  if m.decompress then .gz { d := .magic1, stream := input, chunk_size := 1024 }
  else .raw input

/-- The `while data:` loop of `communicate`, entered with a non-empty
chunk: wait for the pipe via `select` (always eventually writable in the
model), write and flush the chunk, read the next one.  An empty next
chunk ends the loop, after which the pipe is closed and the child
awaited; a `zlib.error` from the read propagates at once (the
`except StopIteration` clause is dead on this path since `decompress`
never raises `StopIteration`), leaving the pipe open and the child
unwaited.  `acc` holds the events so far in reverse. -/
def commLoop : Nat → Int → ReadState → Bytes → List PumpEvent → Int → CommResult
  | 0, _, _, _, acc, _ => { events := acc.reverse, outcome := .fuelOut }
  | fuel + 1, cs, rs, data, acc, rc =>
    match doRead cs rs with
    | .error _ =>
      { events := (PumpEvent.write data :: acc).reverse, outcome := .raisedZlibError }
    | .ok (rs', data') =>
      if data' = [] then
        { events := (PumpEvent.waitChild :: PumpEvent.closeStdin ::
            PumpEvent.write data :: acc).reverse
          outcome := .returned rc }
      else commLoop fuel cs rs' data' (PumpEvent.write data :: acc) rc

/-- The `MakeBlastDB.communicate` method: build `_read`, read the first
chunk (a `zlib.error` here propagates with no event performed), treat an
empty first chunk as null input (close the pipe, wait, return the exit
status), otherwise run the write loop.  The fuel `input.length + 1`
bounds the loop: every iteration that continues has consumed at least
one raw byte from the finite input. -/
def MakeBlastDB.communicate (m : MakeBlastDB) (input : Bytes) (rc : Int) : CommResult :=
  match doRead m.chunk_size (m.initialReader input) with
  | .error _ => { events := [], outcome := .raisedZlibError }
  | .ok (rs1, data) =>
    if data = [] then
      { events := [PumpEvent.closeStdin, PumpEvent.waitChild], outcome := .returned rc }
    else commLoop (input.length + 1) m.chunk_size rs1 data [] rc

/-- Concatenation of all bytes `communicate` wrote to the child's stdin
pipe. -/
def writtenBytes (c : CommResult) : Bytes :=
  c.events.foldr (fun e acc => match e with | .write bs => bs ++ acc | _ => acc) []

/-- Observable effects of a `MakeBlastDB.make` call: spawning the child
process with its argument list (`open_process`), then the pump events of
`communicate`. -/
inductive RunEvent where
  | spawn (args : List String)
  | pump (e : PumpEvent)
  deriving DecidableEq, Repr

/-- The `MakeBlastDB.make` method: apply the option overrides with
`set_options` (a `ValueError` on an unknown key propagates before
anything else happens), then `open_process` spawns the child, then
`communicate` runs.  Returns the events in order and either the
configuration error or the pump outcome. -/
def MakeBlastDB.make (m : MakeBlastDB) (kwargs : List Kwarg) (input : Bytes) (rc : Int) :
    List RunEvent × Except String CommOutcome :=
  match m.set_options kwargs with
  | .error e => ([], .error e)
  | .ok m' =>
    let c := m'.communicate input rc
    (RunEvent.spawn m'.get_command_args :: c.events.map RunEvent.pump, .ok c.outcome)

/-- Behaviour of one `download_and_make(assembly.filepath, ...)` call in
the batch driver of `get_genomes.py`: it either returns an exit status
or raises a `URLError` with some message.  A run of the environment is a
function from the attempt index (number of calls made so far for this
assembly) to the call's behaviour. -/
inductive AttemptResult where
  | ok (rc : Int)
  | urlError (msg : String)
  deriving DecidableEq, Repr

/-- How the driver's retry loop for one assembly ends: `broke r` when a
call returned status `r` and the loop hit `break`; `exhausted` when the
`counter < 3` guard failed after three `[Errno 110]` failures, leaving
the loop without ever binding `r`; `raisedOther msg` when a `URLError`
without `[Errno 110]` in its message was re-raised. -/
inductive RetryOutcome where
  | broke (r : Int)
  | exhausted
  | raisedOther (msg : String)
  deriving DecidableEq, Repr

/-- Python's `needle in haystack` substring test, used by the driver's
`"[Errno 110]" in str(e)` check. -/
def strContains (hay needle : String) : Bool :=
  (List.range (hay.data.length + 1)).any fun i => needle.data.isPrefixOf (hay.data.drop i)

/-- The `while counter < 3` retry loop of `get_genomes.py`, written with
`left = 3 - counter` as the structural recursion argument; `tried`
counts the `download_and_make` calls made.  A returned status breaks the
loop; a `URLError` whose string contains `[Errno 110]` increments the
counter and retries; any other `URLError` is re-raised. -/
def retryGoAux (attempts : Nat → AttemptResult) : Nat → Nat → RetryOutcome × Nat
  | 0, tried => (.exhausted, tried)
  | left + 1, tried =>
    match attempts tried with
    | .ok rc => (.broke rc, tried + 1)
    | .urlError msg =>
      if strContains msg "[Errno 110]" then retryGoAux attempts left (tried + 1)
      else (.raisedOther msg, tried + 1)

/-- The retry loop as entered by the driver: `counter = 0`, no attempt
made yet. -/
def retryLoop (attempts : Nat → AttemptResult) : RetryOutcome × Nat :=
  retryGoAux attempts 3 0

/-- What the driver does right after the retry loop. -/
inductive AfterRetry where
  | usedR (r : Int)
  | nameError
  | propagated (msg : String)
  deriving DecidableEq, Repr

/-- The code following the retry loop in `main`: `if r != 0: ...` uses
the local variable `r`.  After `broke r` the variable is bound; after
re-raising, the error propagates; after `exhausted` the loop never bound
`r`, so the driver reads either a stale value from a previous assembly
in the same `main` call (`prevR = some r`) or an unbound name
(`prevR = none`, Python `NameError`). -/
def afterRetry (prevR : Option Int) : RetryOutcome → AfterRetry
  | .broke r => .usedR r
  | .exhausted =>
    match prevR with
    | none => .nameError
    | some r => .usedR r
  | .raisedOther m => .propagated m

/-- Python strings of `edirect.py` are modelled as character lists. -/
abbrev PyStr := List Char

/-- The `os.path.split(p)[1]` tail of a path: everything after the last
slash (the whole string when there is no slash). -/
def lastSeg (l : PyStr) : PyStr :=
  (l.reverse.takeWhile (fun c => c ≠ '/')).reverse

/-- The `os.path.join(a, b)` of `edirect.py`'s uses (where `b` is a
relative file name): `a` and `b` glued with exactly one slash, or `b`
alone when `a` is empty. -/
def pathJoin (a b : PyStr) : PyStr :=
  if a = [] then b
  else if a.getLast? = some '/' then a ++ b
  else a ++ '/' :: b

/-- Python `s.split(sep, 1)[1]`: the text after the first occurrence of
`sep`, or `none` when `sep` does not occur (in which case the subscript
raises `IndexError`). -/
def afterFirst (sep : Char) : PyStr → Option PyStr
  | [] => none
  | c :: cs => if c = sep then some cs else afterFirst sep cs

/-- The `AssemblyReference` record of `edirect.py`. -/
structure AssemblyReference where
  species : PyStr
  name : PyStr
  filename : PyStr
  filepath : PyStr
  version : PyStr
  type : PyStr
  deriving DecidableEq, Repr

/-- The `AssemblyReference.__init__` constructor: the assembly name is
the ftp path's last segment, the file name appends `_genomic.fna.gz`,
the version is the text after the name's first underscore (`IndexError`,
modelled as `none`, when the name has no underscore), and the type is
`GenBank` for names starting with `GCA`, else `RefSeq`. -/
def AssemblyReference.init (species ftppath : PyStr) : Option AssemblyReference :=
  let name := lastSeg ftppath
  let filename := name ++ "_genomic.fna.gz".data
  let filepath := pathJoin ftppath filename
  match afterFirst '_' name with
  | none => none
  | some version =>
    some { species := species
           name := name
           filename := filename
           filepath := filepath
           version := version
           type := if "GCA".data.isPrefixOf name then "GenBank".data else "RefSeq".data }

/-! Helper lemmas about the modelled decompressor and pump. -/

/-- Feeding a concatenation of two byte strings composes the phases and
concatenates the outputs. -/
theorem feed_append_ok {ph ph1 ph2 : GzPhase} {xs ys out1 out2 : Bytes}
    (h1 : feed ph xs = .ok (ph1, out1)) (h2 : feed ph1 ys = .ok (ph2, out2)) :
    feed ph (xs ++ ys) = .ok (ph2, out1 ++ out2) := by
  induction xs generalizing ph out1 with
  | nil =>
    simp only [feed] at h1
    cases h1
    simpa using h2
  | cons b xs ih =>
    rw [List.cons_append]
    simp only [feed] at h1 ⊢
    cases hb : feed1 ph b with
    | error e => rw [hb] at h1; cases h1
    | ok po =>
      obtain ⟨ph', out⟩ := po
      rw [hb] at h1
      dsimp only at h1 ⊢
      cases hx : feed ph' xs with
      | error e => rw [hx] at h1; cases h1
      | ok qo =>
        obtain ⟨ph1', out1'⟩ := qo
        rw [hx] at h1
        dsimp only at h1
        cases h1
        rw [ih hx]
        simp [List.append_assoc]

/-- After the first member has ended, the modelled decompressor swallows
any further input without output (zlib's `unused_data`). -/
theorem feed_eof_swallows (bs : Bytes) : feed .eof bs = .ok (.eof, []) := by
  induction bs with
  | nil => rfl
  | cons b rest ih => simp [feed, feed1, ih]

/-- The ten header bytes take the decompressor from the initial phase to
the length-reading phase without output. -/
theorem feed_magic1_header : feed .magic1 gzipHeader = .ok (.len0, []) := rfl

/-- The two little-endian length bytes of a payload length below 65536
take the decompressor to the body (or, for an empty payload, straight to
the trailer) without output. -/
theorem feed_len0_pair (l : Nat) (h : l < 65536) :
    feed .len0 [l % 256, l / 256 % 256] =
      .ok (if l = 0 then GzPhase.trailer 8 else .body l, []) := by
  have hl : l % 256 + 256 * (l / 256 % 256) = l := by omega
  by_cases h0 : l = 0
  · subst h0; rfl
  · simp [feed, feed1, hl, h0]

/-- Feeding exactly the announced number of payload bytes emits them all
and reaches the trailer phase. -/
theorem feed_body_all (p : Bytes) (hne : p ≠ []) :
    feed (.body p.length) p = .ok (.trailer 8, p) := by
  induction p with
  | nil => cases hne rfl
  | cons b rest ih =>
    cases rest with
    | nil => rfl
    | cons c rest' =>
      have h1 : feed (GzPhase.body (b :: c :: rest').length) [b] =
          .ok (.body (c :: rest').length, [b]) := by
        simp [feed, feed1]
      simpa using feed_append_ok h1 (ih (by simp))

/-- The eight trailer bytes of the model take the decompressor to the
end-of-stream phase without output. -/
theorem feed_trailer8_zeros : feed (.trailer 8) (List.replicate 8 0) = .ok (.eof, []) := rfl

/-- Round trip of the modelled codec: feeding a whole compressed member
to a fresh decompressor yields exactly the payload and ends at
end-of-stream. -/
theorem feed_gzipCompress (p : Bytes) (h : p.length < 65536) :
    feed .magic1 (gzipCompress p) = .ok (.eof, p) := by
  by_cases hp : p = []
  · subst hp; rfl
  · have h1 : feed .len0 [p.length % 256, p.length / 256 % 256] = .ok (.body p.length, []) := by
      rw [feed_len0_pair p.length h, if_neg (by simpa using hp)]
    have h2 : feed (.body p.length) p = .ok (.trailer 8, p) := feed_body_all p hp
    have h3 := feed_append_ok h2 feed_trailer8_zeros
    have h4 := feed_append_ok h1 h3
    have h5 := feed_append_ok feed_magic1_header h4
    simpa [gzipCompress, List.append_assoc] using h5

/-- A read bounded by at least the remaining length takes the whole
stream. -/
theorem streamRead_all (s : Bytes) (n : Int) (h : (s.length : Int) ≤ n) :
    streamRead s n = (s, []) := by
  have hn : ¬ n < 0 := by omega
  have hlen : s.length ≤ n.toNat := by omega
  simp [streamRead, hn, List.take_of_length_le hlen, List.drop_eq_nil_of_le hlen]

/-- Length of a compressed member: 20 bytes of framing plus the
payload. -/
theorem gzipCompress_length (p : Bytes) : (gzipCompress p).length = p.length + 20 := by
  simp [gzipCompress, gzipHeader]

/-- When the pump loop ends in a `zlib.error`, it has neither closed the
child's stdin nor waited on the child (beyond whatever is already in the
accumulator). -/
theorem commLoop_raised_no_close (fuel : Nat) (cs : Int) (rs : ReadState) (data : Bytes)
    (acc : List PumpEvent) (rc : Int)
    (hc : PumpEvent.closeStdin ∉ acc) (hw : PumpEvent.waitChild ∉ acc) :
    PumpEvent.closeStdin ∉ (commLoop fuel cs rs data acc rc).events ∧
    PumpEvent.waitChild ∉ (commLoop fuel cs rs data acc rc).events ∨
    (commLoop fuel cs rs data acc rc).outcome ≠ .raisedZlibError := by
  induction fuel generalizing rs data acc with
  | zero => right; simp [commLoop]
  | succ fuel ih =>
    simp only [commLoop]
    cases hr : doRead cs rs with
    | error e =>
      left
      constructor <;> simp [List.mem_reverse, hc, hw]
    | ok p =>
      obtain ⟨rs', data'⟩ := p
      by_cases hd : data' = []
      · right; simp [hd]
      · simp only [if_neg hd]
        exact ih rs' data' (PumpEvent.write data :: acc) (by simp [hc]) (by simp [hw])

/-- An unrecognized keyword anywhere in the argument list makes
`set_options` raise. -/
theorem set_options_unknown_mem (m : MakeBlastDB) (l : List Kwarg) (k : String)
    (hmem : Kwarg.unknown k ∈ l) : ∃ e, m.set_options l = .error e := by
  induction l generalizing m with
  | nil => cases hmem
  | cons kw rest ih =>
    cases kw with
    | unknown k' => exact ⟨_, rfl⟩
    | input v => exact ih _ (by simpa using hmem)
    | out v => exact ih _ (by simpa using hmem)
    | title v => exact ih _ (by simpa using hmem)
    | dbtype v => exact ih _ (by simpa using hmem)
    | parse_seqids v => exact ih _ (by simpa using hmem)
    | decompress v => exact ih _ (by simpa using hmem)
    | chunk_size v => exact ih _ (by simpa using hmem)

/-! Theorems for the claims. -/

/-- C5: for an input source whose first read returns no data, the pump
writes zero bytes to the child's stdin, closes the pipe immediately and
returns the exit status obtained from waiting on the child. -/
theorem C5_null_input (m : MakeBlastDB) (input : Bytes) (rc : Int) (rs1 : ReadState)
    (hfirst : doRead m.chunk_size (m.initialReader input) = .ok (rs1, [])) :
    m.communicate input rc =
      { events := [PumpEvent.closeStdin, PumpEvent.waitChild], outcome := .returned rc } := by
  simp [MakeBlastDB.communicate, hfirst]

/-- Witness for C5 at the default configuration and an empty source. -/
theorem C5_null_input_witness :
    doRead (MakeBlastDB.set_defaults "makeblastdb").chunk_size
        ((MakeBlastDB.set_defaults "makeblastdb").initialReader []) = .ok (.raw [], []) ∧
    (MakeBlastDB.set_defaults "makeblastdb").communicate [] 7 =
      { events := [PumpEvent.closeStdin, PumpEvent.waitChild], outcome := .returned 7 } :=
  ⟨rfl, C5_null_input (MakeBlastDB.set_defaults "makeblastdb") [] 7 (.raw []) rfl⟩

/-- C6: the configuration with dbtype nucl, parse_seqids, out x and
title x over the defaults produces exactly the claimed argument list (on
either platform suffix), and in every configuration each option that is
left unset contributes no argument: the list length is exactly three
plus two per set value option plus one for the flag. -/
theorem C6_command_args :
    (∀ w : Bool,
      ((MakeBlastDB.set_defaults (executableName w)).set_options
          [Kwarg.dbtype "nucl", Kwarg.parse_seqids true, Kwarg.out "x", Kwarg.title "x"]).map
        MakeBlastDB.get_command_args =
      .ok [executableName w, "-in", "-", "-out", "x", "-title", "x", "-dbtype", "nucl",
        "-parse_seqids"]) ∧
    ∀ m : MakeBlastDB, (MakeBlastDB.get_command_args m).length =
      3 + (if m.out.isSome then 2 else 0) + (if m.title.isSome then 2 else 0)
        + (if m.dbtype.isSome then 2 else 0) + (if m.parse_seqids then 1 else 0) := by
  constructor
  · intro w
    cases w <;> rfl
  · intro m
    obtain ⟨exe, inp, o, t, d, ps, dec, cs⟩ := m
    cases o <;> cases t <;> cases d <;> cases ps <;>
      simp [MakeBlastDB.get_command_args]

/-- C7: an unrecognized option key anywhere in the keyword arguments
makes `make` fail with the configuration error, and no event at all (in
particular no process spawn) is performed. -/
theorem C7_unknown_option (m : MakeBlastDB) (kwargs : List Kwarg) (input : Bytes)
    (rc : Int) (k : String) (hmem : Kwarg.unknown k ∈ kwargs) :
    (m.make kwargs input rc).1 = [] ∧ ∃ e, (m.make kwargs input rc).2 = .error e := by
  obtain ⟨e, he⟩ := set_options_unknown_mem m kwargs k hmem
  refine ⟨?_, e, ?_⟩ <;> simp [MakeBlastDB.make, he]

/-- Witness for C7 at the key named bogus from the spec's test. -/
theorem C7_unknown_option_witness :
    ((MakeBlastDB.set_defaults "makeblastdb").make [Kwarg.unknown "bogus"] [] 0).1 = [] ∧
    ∃ e, ((MakeBlastDB.set_defaults "makeblastdb").make [Kwarg.unknown "bogus"] [] 0).2 =
      .error e :=
  C7_unknown_option (MakeBlastDB.set_defaults "makeblastdb") [Kwarg.unknown "bogus"] [] 0
    "bogus" (by simp)

/-- C8 counterexample: a `chunk_size` of zero is accepted by
`set_options` (the claim says it is rejected as a configuration error);
the default value 16384 is in place beforehand. -/
theorem C8_chunk_validation_counterexample :
    (MakeBlastDB.set_defaults "makeblastdb").chunk_size = 16384 ∧
    (MakeBlastDB.set_defaults "makeblastdb").set_options [Kwarg.chunk_size 0] =
      .ok { MakeBlastDB.set_defaults "makeblastdb" with chunk_size := 0 } :=
  ⟨rfl, rfl⟩

/-- C8 amended: `chunk_size` defaults to 16384, but no validation is
performed on it: `set_options` accepts and stores every integer value,
including zero and negative ones. -/
theorem C8_chunk_validation_amended :
    (∀ exe : String, (MakeBlastDB.set_defaults exe).chunk_size = 16384) ∧
    ∀ (m : MakeBlastDB) (z : Int),
      m.set_options [Kwarg.chunk_size z] = .ok { m with chunk_size := z } :=
  ⟨fun _ => rfl, fun _ _ => rfl⟩

/-- C1 counterexample: with chunk size 1 (which is ≥ 1) the pump fed the
compressed form of the one-byte payload 65 writes nothing at all — the
first raw chunk is a single header byte that decompresses to zero bytes
and is taken for null input — so the concatenated output is not the
original payload. -/
theorem C1_roundtrip_counterexample :
    (1 : Int) ≥ 1 ∧
    writtenBytes (({ MakeBlastDB.set_defaults "makeblastdb" with
        decompress := true, chunk_size := 1 } : MakeBlastDB).communicate
      (gzipCompress [65]) 0) ≠ [65] := by
  constructor
  · decide
  · decide

/-- C1 amended: the round trip does hold whenever the chunk size is at
least the length of the whole compressed stream (so the first read
decompresses everything): the pump then writes exactly the original
payload and returns the child's exit status. -/
theorem C1_roundtrip_amended (m : MakeBlastDB) (p : Bytes) (rc : Int)
    (hdec : m.decompress = true) (hlen : p.length < 65536)
    (hcs : ((gzipCompress p).length : Int) ≤ m.chunk_size) :
    writtenBytes (m.communicate (gzipCompress p) rc) = p ∧
    (m.communicate (gzipCompress p) rc).outcome = .returned rc := by
  have h0 : (0 : Int) ≤ m.chunk_size := le_trans (Int.natCast_nonneg _) hcs
  have hinit : m.initialReader (gzipCompress p) =
      .gz { d := .magic1, stream := gzipCompress p, chunk_size := 1024 } := by
    simp [MakeBlastDB.initialReader, hdec]
  have hread : doRead m.chunk_size
      (.gz { d := .magic1, stream := gzipCompress p, chunk_size := 1024 }) =
      .ok (.gz { d := .eof, stream := [], chunk_size := 1024 }, p) := by
    simp only [doRead, StreamGunZip.decompress, streamRead_all _ _ hcs]
    rw [feed_gzipCompress p hlen]
  by_cases hp : p = []
  · subst hp
    simp [MakeBlastDB.communicate, hinit, hread, writtenBytes]
  · have hread2 : doRead m.chunk_size
        (.gz { d := .eof, stream := [], chunk_size := 1024 }) =
        .ok (.gz { d := .eof, stream := [], chunk_size := 1024 }, []) := by
      simp only [doRead, StreamGunZip.decompress,
        streamRead_all ([] : Bytes) _ (by simpa using h0)]
      rfl
    have hfuel : (gzipCompress p).length + 1 = p.length + 20 + 1 := by
      rw [gzipCompress_length]
    simp only [MakeBlastDB.communicate, hinit, hread, if_neg hp, hfuel, commLoop, hread2]
    simp [writtenBytes]

/-- Witness for C1 amended at the two-byte payload 72 105 with the
default chunk size 16384. -/
theorem C1_roundtrip_amended_witness :
    writtenBytes (({ MakeBlastDB.set_defaults "makeblastdb" with
        decompress := true } : MakeBlastDB).communicate (gzipCompress [72, 105]) 0) =
      [72, 105] ∧
    (({ MakeBlastDB.set_defaults "makeblastdb" with
        decompress := true } : MakeBlastDB).communicate
      (gzipCompress [72, 105]) 0).outcome = .returned 0 :=
  C1_roundtrip_amended
    { MakeBlastDB.set_defaults "makeblastdb" with decompress := true }
    [72, 105] 0 rfl (by decide) (by decide)

/-- C2 counterexample: with chunk size 1 on a valid compressed stream,
the very first `next` call raises `StopIteration` although raw data
remains in the source and that remaining data still decompresses to a
non-empty payload — an empty transient chunk is treated as
end-of-stream. -/
theorem C2_eos_counterexample :
    ({ d := .magic1, stream := gzipCompress [65], chunk_size := 1 } :
        StreamGunZip).next =
      .stopIteration ⟨.magic2, (gzipCompress [65]).drop 1, 1⟩ ∧
    (gzipCompress [65]).drop 1 ≠ [] ∧
    feed .magic2 ((gzipCompress [65]).drop 1) = .ok (.eof, [65]) := by
  refine ⟨by decide, by decide, rfl⟩

/-- C2 amended: `next` raises `StopIteration` exactly when the chunk it
reads decompresses to zero bytes, regardless of source exhaustion; in
particular it can do so while raw data (still holding undelivered
payload) remains in the source. -/
theorem C2_eos_amended :
    (∀ g : StreamGunZip,
      (∃ g', g.next = .stopIteration g') ↔
      (∃ g', g.decompress (some g.chunk_size) = .ok (g', []))) ∧
    ∃ g g' : StreamGunZip, g.next = .stopIteration g' ∧ g'.stream ≠ [] := by
  refine ⟨?_, ?_⟩
  · intro g
    constructor
    · rintro ⟨g', h⟩
      unfold StreamGunZip.next at h
      cases hd : g.decompress (some g.chunk_size) with
      | error e => rw [hd] at h; cases h
      | ok q =>
        obtain ⟨g'', data⟩ := q
        rw [hd] at h
        dsimp only at h
        by_cases hdat : data = []
        · subst hdat
          simp only [if_pos rfl] at h
          cases h
          exact ⟨_, rfl⟩
        · simp [if_neg hdat] at h
    · rintro ⟨g', h⟩
      refine ⟨g', ?_⟩
      unfold StreamGunZip.next
      rw [h]
      simp
  · exact ⟨⟨.magic1, gzipCompress [65], 1⟩,
      ⟨.magic2, (gzipCompress [65]).drop 1, 1⟩, by decide, by decide⟩

/-- C3 counterexample: draining a stream made of two concatenated
compressed members yields only the first payload 65, not the
concatenation 65 66 of both payloads. -/
theorem C3_multimember_counterexample :
    ({ d := .magic1, stream := gzipCompress [65] ++ gzipCompress [66],
        chunk_size := 1024 } : StreamGunZip).decompress none =
      .ok ({ d := .eof, stream := [], chunk_size := 1024 }, [65]) ∧
    ([65] : Bytes) ≠ [65, 66] := by
  refine ⟨rfl, by decide⟩

/-- C3 amended: over its whole lifetime the reader yields only the first
member's payload; the second member's bytes are consumed into the
decompressor's end-of-stream state without producing output. -/
theorem C3_multimember_amended (p1 p2 : Bytes) (cs : Int) (h1 : p1.length < 65536) :
    ({ d := .magic1, stream := gzipCompress p1 ++ gzipCompress p2,
        chunk_size := cs } : StreamGunZip).decompress none =
      .ok ({ d := .eof, stream := [], chunk_size := cs }, p1) := by
  have h := feed_append_ok (feed_gzipCompress p1 h1) (feed_eof_swallows (gzipCompress p2))
  simp only [StreamGunZip.decompress, h]
  simp

/-- Witness for C3 amended at the payloads 65 and 66. -/
theorem C3_multimember_amended_witness :
    ({ d := .magic1, stream := gzipCompress [65] ++ gzipCompress [66],
        chunk_size := 2 } : StreamGunZip).decompress none =
      .ok ({ d := .eof, stream := [], chunk_size := 2 }, [65]) :=
  C3_multimember_amended [65] [66] 2 (by decide)

/-- C4 counterexample: on malformed compressed input the pump ends with
the decompression error, but contrary to the claim it has neither closed
the child's stdin nor waited on the child — the exception propagates
before any cleanup. -/
theorem C4_cleanup_counterexample :
    (({ MakeBlastDB.set_defaults "makeblastdb" with decompress := true } :
        MakeBlastDB).communicate [255, 1, 2] 0).outcome = .raisedZlibError ∧
    PumpEvent.closeStdin ∉ (({ MakeBlastDB.set_defaults "makeblastdb" with
        decompress := true } : MakeBlastDB).communicate [255, 1, 2] 0).events ∧
    PumpEvent.waitChild ∉ (({ MakeBlastDB.set_defaults "makeblastdb" with
        decompress := true } : MakeBlastDB).communicate [255, 1, 2] 0).events := by
  refine ⟨rfl, by decide, by decide⟩

/-- C4 amended: whenever `communicate` ends by propagating the
decompression error, it has not closed the child's stdin and has not
waited on the child (the child process is leaked to the caller). -/
theorem C4_cleanup_amended (m : MakeBlastDB) (input : Bytes) (rc : Int)
    (h : (m.communicate input rc).outcome = .raisedZlibError) :
    PumpEvent.closeStdin ∉ (m.communicate input rc).events ∧
    PumpEvent.waitChild ∉ (m.communicate input rc).events := by
  unfold MakeBlastDB.communicate at h ⊢
  cases hr : doRead m.chunk_size (m.initialReader input) with
  | error e => dsimp only; simp
  | ok q =>
    obtain ⟨rs1, data⟩ := q
    rw [hr] at h
    dsimp only at h ⊢
    by_cases hd : data = []
    · simp [hd] at h
    · rw [if_neg hd] at h ⊢
      rcases commLoop_raised_no_close (input.length + 1) m.chunk_size rs1 data [] rc
        (by simp) (by simp) with hok | hne
      · exact hok
      · exact absurd h hne

/-- Witness for C4 amended at a one-byte malformed input. -/
theorem C4_cleanup_amended_witness :
    PumpEvent.closeStdin ∉ (({ MakeBlastDB.set_defaults "makeblastdb" with
        decompress := true } : MakeBlastDB).communicate [255] 3).events ∧
    PumpEvent.waitChild ∉ (({ MakeBlastDB.set_defaults "makeblastdb" with
        decompress := true } : MakeBlastDB).communicate [255] 3).events :=
  C4_cleanup_amended
    { MakeBlastDB.set_defaults "makeblastdb" with decompress := true } [255] 3 rfl

/-- The retry loop makes at most `left` further attempts. -/
theorem retryGoAux_tried_le (a : Nat → AttemptResult) :
    ∀ left tried : Nat, (retryGoAux a left tried).2 ≤ tried + left := by
  intro left
  induction left with
  | zero => intro tried; simp [retryGoAux]
  | succ n ih =>
    intro tried
    simp only [retryGoAux]
    cases a tried with
    | ok rc => dsimp only; omega
    | urlError msg =>
      dsimp only
      by_cases hm : strContains msg "[Errno 110]"
      · rw [if_pos hm]
        have := ih (tried + 1)
        omega
      · rw [if_neg hm]
        dsimp only
        omega

/-- C9: when every `download_and_make` call raises the `[Errno 110]`
`URLError`, the driver's retry loop makes exactly three attempts and
then exits with the counter exhausted; the code after the loop then
reads the never-bound variable `r` (a `NameError`) instead of
propagating the network error.  In general the loop never makes more
than three attempts. -/
theorem C9_retry_exhaustion :
    retryLoop (fun _ => .urlError "<urlopen error [Errno 110] Connection timed out>") =
      (.exhausted, 3) ∧
    afterRetry none .exhausted = .nameError ∧
    ∀ attempts : Nat → AttemptResult, (retryLoop attempts).2 ≤ 3 := by
  refine ⟨rfl, rfl, ?_⟩
  intro a
  simpa [retryLoop] using retryGoAux_tried_le a 3 0

/-- The first element retained by `dropWhile` falsifies the predicate. -/
theorem dropWhile_head_false {α : Type} {p : α → Bool} :
    ∀ {l : List α} {a : α} {t : List α}, l.dropWhile p = a :: t → p a = false := by
  intro l
  induction l with
  | nil => intro a t h; cases h
  | cons x xs ih =>
    intro a t h
    rw [List.dropWhile_cons] at h
    by_cases hx : p x = true
    · exact ih (by rwa [if_pos hx] at h)
    · rw [if_neg hx] at h
      cases h
      simpa using hx

/-- Specification of `lastSeg`: it contains no slash and is a suffix of
the path cut at a slash boundary (or the whole path). -/
theorem lastSeg_spec (l : PyStr) :
    ('/' : Char) ∉ lastSeg l ∧
    ∃ pre, l = pre ++ lastSeg l ∧ (pre = [] ∨ pre.getLast? = some '/') := by
  constructor
  · intro hmem
    rw [lastSeg, List.mem_reverse] at hmem
    have := List.mem_takeWhile_imp hmem
    simp at this
  · refine ⟨(l.reverse.dropWhile fun c => c ≠ '/').reverse, ?_, ?_⟩
    · have h := congrArg List.reverse
        (List.takeWhile_append_dropWhile (fun c => decide (c ≠ '/')) l.reverse)
      simp only [List.reverse_append, List.reverse_reverse] at h
      rw [lastSeg]
      exact h.symm
    · cases hdw : l.reverse.dropWhile fun c => c ≠ '/' with
      | nil => left; simp
      | cons a t =>
        right
        have ha : a = '/' := by simpa using dropWhile_head_false hdw
        rw [List.getLast?_reverse, List.head?_cons, ha]

/-- Specification of `afterFirst`: a `some` result splits the string at
its first separator occurrence. -/
theorem afterFirst_spec {sep : Char} :
    ∀ {l v : PyStr}, afterFirst sep l = some v → ∃ pre, sep ∉ pre ∧ l = pre ++ sep :: v := by
  intro l
  induction l with
  | nil => intro v h; cases h
  | cons c cs ih =>
    intro v h
    rw [afterFirst] at h
    by_cases hc : c = sep
    · rw [if_pos hc] at h
      cases h
      exact ⟨[], by simp, by simp [hc]⟩
    · rw [if_neg hc] at h
      obtain ⟨pre, hnp, heq⟩ := ih h
      refine ⟨c :: pre, ?_, by rw [List.cons_append, heq]⟩
      intro hs
      rcases List.mem_cons.mp hs with hs | hs
      · exact hc hs.symm
      · exact hnp hs

/-- C10: a constructed `AssemblyReference` derives its name as the
path's last slash-free segment, its downloadable filename as the name
with `_genomic.fna.gz` appended, its version as the text after the first
underscore of the name, and its repository kind as GenBank exactly for
names with the `GCA` prefix and RefSeq otherwise. -/
theorem C10_assembly_reference (species ftppath : PyStr) (r : AssemblyReference)
    (h : AssemblyReference.init species ftppath = some r) :
    (('/' : Char) ∉ r.name ∧
      ∃ pre, ftppath = pre ++ r.name ∧ (pre = [] ∨ pre.getLast? = some '/')) ∧
    r.filename = r.name ++ "_genomic.fna.gz".data ∧
    (∃ pre, ('_' : Char) ∉ pre ∧ r.name = pre ++ '_' :: r.version) ∧
    r.type = (if "GCA".data.isPrefixOf r.name then "GenBank".data else "RefSeq".data) := by
  simp only [AssemblyReference.init] at h
  cases hv : afterFirst '_' (lastSeg ftppath) with
  | none => rw [hv] at h; cases h
  | some version =>
    rw [hv] at h
    dsimp only at h
    injection h with h2
    subst h2
    refine ⟨?_, rfl, ?_, rfl⟩
    · exact lastSeg_spec ftppath
    · obtain ⟨pre, hnp, heq⟩ := afterFirst_spec hv
      exact ⟨pre, hnp, heq⟩

/-- Witness for C10 at a concrete species and ftp path. -/
theorem C10_assembly_reference_witness :
    AssemblyReference.init "x".data "a/GCA_1.2".data = some
      (⟨"x".data, "GCA_1.2".data, "GCA_1.2_genomic.fna.gz".data,
        "a/GCA_1.2/GCA_1.2_genomic.fna.gz".data, "1.2".data,
        "GenBank".data⟩ : AssemblyReference) ∧
    ((('/' : Char) ∉ ("GCA_1.2".data : PyStr) ∧
      ∃ pre, "a/GCA_1.2".data = pre ++ "GCA_1.2".data ∧
        (pre = [] ∨ pre.getLast? = some '/')) ∧
    ("GCA_1.2_genomic.fna.gz".data : PyStr) = "GCA_1.2".data ++ "_genomic.fna.gz".data ∧
    (∃ pre, ('_' : Char) ∉ pre ∧ "GCA_1.2".data = pre ++ '_' :: "1.2".data) ∧
    ("GenBank".data : PyStr) =
      (if "GCA".data.isPrefixOf "GCA_1.2".data then "GenBank".data else "RefSeq".data)) :=
  ⟨by decide, C10_assembly_reference "x".data "a/GCA_1.2".data
    ⟨"x".data, "GCA_1.2".data, "GCA_1.2_genomic.fna.gz".data,
      "a/GCA_1.2/GCA_1.2_genomic.fna.gz".data, "1.2".data, "GenBank".data⟩
    (by decide)⟩

end GenomeInstall

